import Mathlib

/-!
Shallow embedding of the annotation-compositing engine of the
`aveti-eduboard` whiteboard (`src/components/Whiteboard.tsx` together with
the shared types in `src/types.ts`), and proofs of the testable
properties of the spec against it.

Conventions of the embedding:
* coordinates, widths and opacities are rationals (the source works on JS
  numbers and only ever applies field operations to them);
* wall-clock instants (`Date.now()`) are integers (milliseconds);
* calls to the 2D canvas context are reified as a list of `CanvasOp`
  values in call order, so "renders identically" is equality of op lists;
* the irrational math primitives the renderer calls (`Math.sqrt`,
  `Math.atan2`, `Math.cos`, `Math.sin`, `Math.PI`) are passed in as an
  explicit `MathPrims` record of rational-valued functions, keeping every
  definition executable while preserving exactly which inputs each
  primitive is applied to;
* the component state touched by the pointer handlers and the redraw pass
  (`isDrawing`, `currentStroke`, `slide.strokes`, `laserState.lastActive`)
  is an explicit `WBState`, and each invocation of the `onUpdateSlide`
  callback is logged in `WBState.calls`.
-/

namespace Eduboard

/-- The `ToolType` enum from `src/types.ts`. -/
inductive ToolType where
  | PEN
  | HIGHLIGHTER
  | ERASER
  | LASER
  | RECTANGLE
  | CIRCLE
  | ARROW
  | TEXT
deriving DecidableEq, Repr

/-- The `Point` interface from `src/types.ts`: x/y in drawing-surface pixel space, optional
timestamp. -/
structure Point where
  x : ℚ
  y : ℚ
  t : Option ℤ
deriving DecidableEq, Repr

instance : Inhabited Point := ⟨⟨0, 0, none⟩⟩

/-- The `Stroke` interface from `src/types.ts`. -/
structure Stroke where
  id : String
  tool : ToolType
  points : List Point
  color : String
  width : ℚ
  isFilled : Option Bool
deriving DecidableEq, Repr

instance : Inhabited Stroke :=
  ⟨⟨"", ToolType.PEN, [], "", 0, none⟩⟩

/-- Constant `LASER_HOLD_MS` (Whiteboard.tsx line 14): keep the laser visible for
2 seconds after writing stops. -/
def LASER_HOLD_MS : ℤ := 2000

/-- Constant `LASER_FADE_MS` (Whiteboard.tsx line 15): fade out over 1 second. -/
def LASER_FADE_MS : ℤ := 1000

/-- The laser decay computation of `redraw` (Whiteboard.tsx lines 304-314),
as a function of `timeSinceActive = now - laserState.current.lastActive`:
1 inside the hold window, a linear ramp down inside the fade window,
0 afterwards. -/
def laserLife (timeSinceActive : ℤ) : ℚ :=
  if timeSinceActive < LASER_HOLD_MS then 1
  else if timeSinceActive < LASER_HOLD_MS + LASER_FADE_MS then
    1 - ((timeSinceActive : ℚ) - (LASER_HOLD_MS : ℚ)) / (LASER_FADE_MS : ℚ)
  else 0

/-- The irrational math primitives `renderStroke` calls (`Math.sqrt`,
`Math.atan2`, `Math.cos`, `Math.sin`, `Math.PI`), abstracted as
rational-valued functions so the renderer stays executable. -/
structure MathPrims where
  sqrt : ℚ → ℚ
  atan2 : ℚ → ℚ → ℚ
  cos : ℚ → ℚ
  sin : ℚ → ℚ
  pi : ℚ

/-- One call on the 2D canvas context, in the order `renderStroke` issues
them.  Property assignments (`ctx.lineWidth = …`) are reified as `set…`
operations. -/
inductive CanvasOp where
  | setLineWidth (w : ℚ)
  | setLineCap (v : String)
  | setLineJoin (v : String)
  | setShadowBlur (v : ℚ)
  | setShadowColor (v : String)
  | setGlobalAlpha (v : ℚ)
  | setGCO (mode : String)
  | setStrokeStyle (v : String)
  | setFillStyle (v : String)
  | beginPath
  | moveTo (x y : ℚ)
  | lineTo (x y : ℚ)
  | quadraticCurveTo (cx cy x y : ℚ)
  | arc (x y r a0 a1 : ℚ)
  | strokeRect (x y w h : ℚ)
  | stroke
  | fill
deriving DecidableEq, Repr

/-- Line width of laser segment `i` of an `n`-point laser stroke
(Whiteboard.tsx lines 165-169): `progress = i / points.length`,
`taperFactor = 0.5 + 0.5 * progress`, clamped below by 1. -/
def laserSegWidth (w : ℚ) (n i : ℕ) : ℚ :=
  max 1 (w * (0.5 + 0.5 * ((i : ℚ) / (n : ℚ))))

/-- One iteration of the laser segment loop (Whiteboard.tsx lines 160-174):
draw the segment from `points[i]` to `points[i+1]` at the tapered width. -/
def laserSeg (w : ℚ) (c : String) (pts : List Point) (i : ℕ) : List CanvasOp :=
  let p1 := pts.getD i default
  let p2 := pts.getD (i + 1) default
  [CanvasOp.beginPath,
   CanvasOp.setLineWidth (laserSegWidth w pts.length i),
   CanvasOp.setStrokeStyle c,
   CanvasOp.moveTo p1.x p1.y,
   CanvasOp.lineTo p2.x p2.y,
   CanvasOp.stroke]

/-- The whole laser segment loop: `for (i = 0; i < points.length - 1; i++)`. -/
def laserSegs (w : ℚ) (c : String) (pts : List Point) : List CanvasOp :=
  ((List.range (pts.length - 1)).map (laserSeg w c pts)).flatten

/-- The laser branch of `renderStroke` (Whiteboard.tsx lines 143-186):
glow setup, early return on an empty point list or spent life, the tapered
segment loop at `globalAlpha = life`, and the head "bulb". -/
def laserRender (m : MathPrims) (s : Stroke) (opacityOverride : Option ℚ) :
    List CanvasOp :=
  let glow := [CanvasOp.setShadowBlur 15, CanvasOp.setShadowColor s.color,
               CanvasOp.setGCO "source-over"]
  if s.points.length < 1 then glow
  else
    let life := opacityOverride.getD 1
    if life ≤ 0 then glow
    else
      glow ++ [CanvasOp.setGlobalAlpha life]
        ++ laserSegs s.width s.color s.points
        ++ (if 0 < life then
              let last := s.points.getD (s.points.length - 1) default
              [CanvasOp.beginPath, CanvasOp.setFillStyle s.color,
               CanvasOp.arc last.x last.y (s.width / 1.5) 0 (m.pi * 2),
               CanvasOp.fill]
            else [])

/-- The freehand path of `renderStroke` (Whiteboard.tsx lines 207-226):
`moveTo` the first point, then for more than two points quadratic curves
through midpoints with a final curve to the last point, otherwise straight
`lineTo` segments, then one `stroke`. -/
def freehandOps (pts : List Point) : List CanvasOp :=
  let p0 := pts.getD 0 default
  [CanvasOp.moveTo p0.x p0.y]
    ++ (if 2 < pts.length then
          ((List.range (pts.length - 3)).map (fun k =>
             let q := pts.getD (k + 1) default
             let r := pts.getD (k + 2) default
             CanvasOp.quadraticCurveTo q.x q.y ((q.x + r.x) / 2) ((q.y + r.y) / 2)))
          ++ [CanvasOp.quadraticCurveTo
                (pts.getD (pts.length - 2) default).x
                (pts.getD (pts.length - 2) default).y
                (pts.getD (pts.length - 1) default).x
                (pts.getD (pts.length - 1) default).y]
        else
          (List.range (pts.length - 1)).map (fun k =>
            let q := pts.getD (k + 1) default
            CanvasOp.lineTo q.x q.y))
    ++ [CanvasOp.stroke]

/-- Function `renderStroke` (Whiteboard.tsx lines 136-254): paint one stroke onto the
context, as the list of context calls it makes. -/
def renderStroke (m : MathPrims) (s : Stroke) (opacityOverride : Option ℚ) :
    List CanvasOp :=
  let pre := [CanvasOp.setLineWidth s.width, CanvasOp.setLineCap "round",
              CanvasOp.setLineJoin "round", CanvasOp.setShadowBlur 0]
  if s.tool = ToolType.LASER then pre ++ laserRender m s opacityOverride
  else
    let styleOps :=
      if s.tool = ToolType.HIGHLIGHTER then
        [CanvasOp.setGlobalAlpha 0.5, CanvasOp.setGCO "multiply"]
          ++ (if s.color = "" then [CanvasOp.setStrokeStyle "#ffff00"] else [])
      else if s.tool = ToolType.ERASER then
        [CanvasOp.setGCO "destination-out", CanvasOp.setGlobalAlpha 1,
         CanvasOp.setStrokeStyle "rgba(0,0,0,1)"]
      else [CanvasOp.setGlobalAlpha 1, CanvasOp.setGCO "source-over"]
    let base := [CanvasOp.beginPath, CanvasOp.setStrokeStyle s.color] ++ styleOps
    if s.points.length = 0 then pre ++ base
    else
      let start := s.points.getD 0 default
      let stop := s.points.getD (s.points.length - 1) default
      let drawOps :=
        if s.tool = ToolType.PEN ∨ s.tool = ToolType.HIGHLIGHTER ∨
            s.tool = ToolType.ERASER then
          freehandOps s.points
        else if s.tool = ToolType.RECTANGLE then
          [CanvasOp.strokeRect start.x start.y (stop.x - start.x) (stop.y - start.y)]
        else if s.tool = ToolType.CIRCLE then
          let radius := m.sqrt ((stop.x - start.x) ^ 2 + (stop.y - start.y) ^ 2)
          [CanvasOp.beginPath, CanvasOp.arc start.x start.y radius 0 (2 * m.pi),
           CanvasOp.stroke]
        else if s.tool = ToolType.ARROW then
          let headLen := s.width * 5
          let angle := m.atan2 (stop.y - start.y) (stop.x - start.x)
          [CanvasOp.moveTo start.x start.y, CanvasOp.lineTo stop.x stop.y,
           CanvasOp.stroke,
           CanvasOp.beginPath, CanvasOp.moveTo stop.x stop.y,
           CanvasOp.lineTo (stop.x - headLen * m.cos (angle - m.pi / 6))
                           (stop.y - headLen * m.sin (angle - m.pi / 6)),
           CanvasOp.moveTo stop.x stop.y,
           CanvasOp.lineTo (stop.x - headLen * m.cos (angle + m.pi / 6))
                           (stop.y - headLen * m.sin (angle + m.pi / 6)),
           CanvasOp.stroke]
        else []
      pre ++ base ++ drawOps

/-- The Whiteboard component state the pointer handlers and the redraw pass
touch: `isDrawing`, `currentStroke`, the persisted `strokes` of the slide,
`laserState.current.lastActive`, plus a log of every stroke list passed to
the `onUpdateSlide` callback. -/
structure WBState where
  isDrawing : Bool
  currentStroke : Option Stroke
  strokes : List Stroke
  lastActive : ℤ
  calls : List (List Stroke)
deriving DecidableEq, Repr

/-- Initial state of a freshly created slide: not drawing, no in-progress
stroke, empty persisted stroke list. -/
def init0 : WBState :=
  { isDrawing := false, currentStroke := none, strokes := [],
    lastActive := 0, calls := [] }

/-- Handler `startDrawing` (Whiteboard.tsx lines 390-407): open a gesture with the
current tool/color/width, seed the stroke with the pointer-down point, and
refresh the laser timestamp when the Laser tool is selected.  The generated
`crypto.randomUUID()` is passed in as `sid`. -/
def startDrawing (tool : ToolType) (color : String) (width : ℚ)
    (sid : String) (p : Point) (now : ℤ) (st : WBState) : WBState :=
  { st with
    isDrawing := true
    lastActive := if tool = ToolType.LASER then now else st.lastActive
    currentStroke := some
      { id := sid
        tool := tool
        points := [p]
        color := if tool = ToolType.ERASER then "#000000" else color
        width := if tool = ToolType.ERASER then width * 5 else width
        isFilled := none } }

/-- Handler `draw` (Whiteboard.tsx lines 409-423): ignore moves outside a gesture;
otherwise refresh the laser timestamp when the Laser tool is selected, and
for shape tools replace the point list with `[points[0], p]` while freehand
tools append `p`. -/
def draw (tool : ToolType) (p : Point) (now : ℤ) (st : WBState) : WBState :=
  match st.isDrawing, st.currentStroke with
  | true, some cs =>
    let st1 := if tool = ToolType.LASER then { st with lastActive := now } else st
    if tool = ToolType.RECTANGLE ∨ tool = ToolType.CIRCLE ∨
        tool = ToolType.ARROW then
      { st1 with currentStroke := some { cs with points := [cs.points.getD 0 default, p] } }
    else
      { st1 with currentStroke := some { cs with points := cs.points ++ [p] } }
  | _, _ => st

/-- Handler `stopDrawing` (Whiteboard.tsx lines 425-435): a no-op unless a gesture
is open; otherwise close the gesture, refresh the laser timestamp when the
Laser tool is selected, append the finished stroke to the persisted
list of the slide through one `onUpdateSlide` call, and clear the in-progress stroke. -/
def stopDrawing (tool : ToolType) (now : ℤ) (st : WBState) : WBState :=
  match st.isDrawing, st.currentStroke with
  | true, some cs =>
    { st with
      isDrawing := false
      lastActive := if tool = ToolType.LASER then now else st.lastActive
      strokes := st.strokes ++ [cs]
      calls := st.calls ++ [st.strokes ++ [cs]]
      currentStroke := none }
  | _, _ => st

/-- Expression `slide.strokes.some(s => s.tool === ToolType.LASER)`
(Whiteboard.tsx line 341). -/
def existingLasers (st : WBState) : Bool :=
  st.strokes.any (fun s => decide (s.tool = ToolType.LASER))

/-- Expression `isDrawing && currentStroke?.tool === ToolType.LASER`
(Whiteboard.tsx line 298). -/
def isDrawingLaser (st : WBState) : Bool :=
  st.isDrawing &&
    (match st.currentStroke with
     | some cs => decide (cs.tool = ToolType.LASER)
     | none => false)

/-- The `laserOpacity` value `redraw` computes (Whiteboard.tsx lines
293-315): 1 while a laser stroke is actively being drawn, otherwise the
value of the decay tracker at `now - lastActive`. -/
def laserOpacity (st : WBState) (now : ℤ) : ℚ :=
  if isDrawingLaser st then 1 else laserLife (now - st.lastActive)

/-- The cleanup step of `redraw` (Whiteboard.tsx lines 339-351): when laser
strokes exist, their opacity has hit 0, and none is being drawn, schedule an
update to the non-laser strokes — but skip it when the filter removes
nothing.  `some newList` means `onUpdateSlide` will be called with that
list; `none` means no update is scheduled. -/
def redrawGC (st : WBState) (now : ℤ) : Option (List Stroke) :=
  if existingLasers st = true ∧ laserOpacity st now ≤ 0 ∧
      isDrawingLaser st = false then
    let nonLaserStrokes := st.strokes.filter (fun s => decide (s.tool ≠ ToolType.LASER))
    if nonLaserStrokes.length ≠ st.strokes.length then some nonLaserStrokes
    else none
  else none

/-- Applying the (possibly absent) scheduled garbage-collection update to
the state: through `onUpdateSlide` the parent replaces the stroke list of the slide. -/
def applyGC (st : WBState) (now : ℤ) : WBState :=
  match redrawGC st now with
  | none => st
  | some nl => { st with strokes := nl, calls := st.calls ++ [nl] }

/-- The return value of `redraw` (Whiteboard.tsx line 354): keep animating
iff a gesture is in progress, or persisted laser strokes are still visible,
or a screen-share stream is attached. -/
def redrawShouldContinue (st : WBState) (now : ℤ) (screenStream : Bool) : Bool :=
  st.isDrawing || (existingLasers st && decide (0 < laserOpacity st now)) || screenStream

/-- One transition of the input/frame state machine: a pointer-down, a
pointer-move, a pointer-up/leave (each under arbitrary current tool, color,
width, point and clock), or a redraw pass applying its scheduled laser
garbage collection. -/
inductive Step : WBState → WBState → Prop where
  | start (tool : ToolType) (color : String) (width : ℚ) (sid : String)
      (p : Point) (now : ℤ) (st : WBState) :
      Step st (startDrawing tool color width sid p now st)
  | move (tool : ToolType) (p : Point) (now : ℤ) (st : WBState) :
      Step st (draw tool p now st)
  | stop (tool : ToolType) (now : ℤ) (st : WBState) :
      Step st (stopDrawing tool now st)
  | gc (now : ℤ) (st : WBState) :
      Step st (applyGC st now)

/-- States reachable from the initial state of a fresh slide. -/
inductive Reachable : WBState → Prop where
  | init : Reachable init0
  | step {st st' : WBState} : Reachable st → Step st st' → Reachable st'

/-- Inside the hold window the laser is fully visible. -/
lemma laserLife_hold {dt : ℤ} (h : dt < LASER_HOLD_MS) : laserLife dt = 1 := by
  simp only [laserLife, if_pos h]

/-- Inside the fade window the laser life is the linear ramp. -/
lemma laserLife_fade {dt : ℤ} (h1 : LASER_HOLD_MS ≤ dt)
    (h2 : dt < LASER_HOLD_MS + LASER_FADE_MS) :
    laserLife dt = 1 - ((dt : ℚ) - 2000) / 1000 := by
  simp only [laserLife, LASER_HOLD_MS, LASER_FADE_MS] at *
  rw [if_neg (by omega), if_pos (by omega)]
  norm_num

/-- After the fade window the laser life is zero. -/
lemma laserLife_dead {dt : ℤ} (h : LASER_HOLD_MS + LASER_FADE_MS ≤ dt) :
    laserLife dt = 0 := by
  simp only [laserLife, LASER_HOLD_MS, LASER_FADE_MS] at *
  rw [if_neg (by omega), if_neg (by omega)]

/-- At the hold-window boundary the ramp still evaluates to 1. -/
lemma laserLife_at_hold_boundary : laserLife 2000 = 1 := by
  rw [laserLife_fade (by norm_num [LASER_HOLD_MS])
    (by norm_num [LASER_HOLD_MS, LASER_FADE_MS])]
  norm_num

/-- C1 (counterexample): the claim puts the laser life in the open interval
(0,1) for every `dt` with `holdWindow ≤ dt < holdWindow + fadeWindow`, but at
`dt = 2000` (exactly the hold window) the code computes `1 - 0/1000 = 1`,
which is not `< 1`. -/
theorem C1_counterexample : laserLife 2000 = 1 ∧ ¬ laserLife 2000 < 1 :=
  ⟨laserLife_at_hold_boundary, by
    rw [laserLife_at_hold_boundary]; exact lt_irrefl 1⟩

/-- C1 (amended): with no laser stroke actively drawn, the decay value, at
`dt = t - lastActiveTimestamp`, is exactly 1 for `dt < 2000` and also
at `dt = 2000`; equals the linear ramp `1 - (dt - 2000)/1000` on
`2000 ≤ dt < 3000`, where it lies in (0,1) for `2000 < dt` and is strictly
decreasing; and is exactly 0 for `dt ≥ 3000`.  In particular the life is 1
at 1000 ms, 1/2 at 2500 ms, and 0 at 3100 ms. -/
theorem laserLife_decay (dt dt' : ℤ) :
    (dt < 2000 → laserLife dt = 1) ∧
    laserLife 2000 = 1 ∧
    (2000 ≤ dt → dt < 3000 → laserLife dt = 1 - ((dt : ℚ) - 2000) / 1000) ∧
    (2000 < dt → dt < 3000 → 0 < laserLife dt ∧ laserLife dt < 1) ∧
    (2000 ≤ dt → dt < dt' → dt' < 3000 → laserLife dt' < laserLife dt) ∧
    (3000 ≤ dt → laserLife dt = 0) ∧
    laserLife 1000 = 1 ∧ laserLife 2500 = 1 / 2 ∧ laserLife 3100 = 0 := by
  refine ⟨fun h => laserLife_hold (by simpa [LASER_HOLD_MS] using h),
    laserLife_at_hold_boundary,
    fun h1 h2 => laserLife_fade (by simpa [LASER_HOLD_MS] using h1)
      (by simp only [LASER_HOLD_MS, LASER_FADE_MS]; omega),
    fun h1 h2 => ?_, fun h1 h2 h3 => ?_,
    fun h => laserLife_dead (by simp only [LASER_HOLD_MS, LASER_FADE_MS]; omega),
    laserLife_hold (by norm_num [LASER_HOLD_MS]), ?_,
    laserLife_dead (by norm_num [LASER_HOLD_MS, LASER_FADE_MS])⟩
  · rw [laserLife_fade (by simp only [LASER_HOLD_MS]; omega)
      (by simp only [LASER_HOLD_MS, LASER_FADE_MS]; omega)]
    have hq1 : (2000 : ℚ) < (dt : ℚ) := by exact_mod_cast h1
    have hq2 : (dt : ℚ) < 3000 := by exact_mod_cast h2
    constructor <;> [linarith; linarith]
  · rw [laserLife_fade (by simp only [LASER_HOLD_MS]; omega)
      (by simp only [LASER_HOLD_MS, LASER_FADE_MS]; omega),
      laserLife_fade (by simp only [LASER_HOLD_MS]; omega)
      (by simp only [LASER_HOLD_MS, LASER_FADE_MS]; omega)]
    have hq : (dt : ℚ) < (dt' : ℚ) := by exact_mod_cast h2
    have : ((dt : ℚ) - 2000) / 1000 < ((dt' : ℚ) - 2000) / 1000 := by linarith
    linarith
  · rw [laserLife_fade (by norm_num [LASER_HOLD_MS])
      (by norm_num [LASER_HOLD_MS, LASER_FADE_MS])]
    norm_num

/-- C1 witness: the amended theorem instantiated at `dt = 2400, dt' = 2600`,
discharging the fade-window hypotheses: life strictly decreases there. -/
theorem laserLife_decay_witness : laserLife 2600 < laserLife 2400 :=
  (laserLife_decay 2400 2600).2.2.2.2.1 (by norm_num) (by norm_num) (by norm_num)

/-- Pointer-down point of the C2 scenario: (0,0) at clock 0. -/
def c2p1 : Point := ⟨0, 0, some 0⟩

/-- First move point of the C2 scenario: (10,0) at clock 1. -/
def c2p2 : Point := ⟨10, 0, some 1⟩

/-- Second move point of the C2 scenario: (10,10) at clock 2. -/
def c2p3 : Point := ⟨10, 10, some 2⟩

/-- The state after the full C2 gesture on an empty slide: pointer-down at
(0,0), moves through (10,0) and (10,10), then release, with tool Pen, color
`#3B82F6`, width 4. -/
def c2Final : WBState :=
  stopDrawing ToolType.PEN 3
    (draw ToolType.PEN c2p3 2
      (draw ToolType.PEN c2p2 1
        (startDrawing ToolType.PEN "#3B82F6" 4 "s1" c2p1 0 init0)))

/-- C2: the Pen gesture (0,0)→(10,0)→(10,10) with color `#3B82F6`, width 4
commits exactly one stroke with tool Pen, that color and width, and point
coordinates exactly [(0,0),(10,0),(10,10)] (gesture end adds no point); it
is appended through a single `onUpdateSlide` call, and the previously empty
stroke list now has length 1. -/
theorem C2_pen_scenario :
    c2Final.strokes.map
        (fun s => (s.tool, s.color, s.width, s.points.map fun p => (p.x, p.y)))
      = [(ToolType.PEN, "#3B82F6", 4, [(0, 0), (10, 0), (10, 10)])] ∧
    c2Final.strokes =
      [{ id := "s1", tool := ToolType.PEN, points := [c2p1, c2p2, c2p3],
         color := "#3B82F6", width := 4, isFilled := none }] ∧
    c2Final.calls = [c2Final.strokes] ∧
    c2Final.strokes.length = 1 := by
  refine ⟨by decide, by decide, by decide, by decide⟩

/-- C10: invoking gesture end with no open gesture (no pointer-down yet, or
already ended, e.g. a pointer-up after the pointer already left the surface)
changes nothing: no `onUpdateSlide` call, same stroke list, and the
in-progress stroke and drawing flag keep their values. -/
theorem stopDrawing_noop (tool : ToolType) (now : ℤ) (st : WBState)
    (h : st.isDrawing = false ∨ st.currentStroke = none) :
    stopDrawing tool now st = st := by
  rcases st with ⟨d, cs, ss, la, cl⟩
  rcases h with h | h <;> simp_all [stopDrawing]

/-- C10 witness: a pointer-up on the untouched initial state is a no-op. -/
theorem stopDrawing_noop_witness :
    stopDrawing ToolType.PEN 5 init0 = init0 :=
  stopDrawing_noop ToolType.PEN 5 init0 (Or.inl rfl)

/-- C3: the per-frame `redraw` pass asks for another tick iff a gesture is
in progress, or a persisted laser stroke exists while the laser opacity is
still positive, or a live screen-share stream is attached; in every other
state it returns false (and the animation loop then stops rescheduling). -/
theorem redraw_continue_iff (st : WBState) (now : ℤ) (screenStream : Bool) :
    redrawShouldContinue st now screenStream = true ↔
      st.isDrawing = true ∨
      ((∃ s ∈ st.strokes, s.tool = ToolType.LASER) ∧ 0 < laserOpacity st now) ∨
      screenStream = true := by
  simp only [redrawShouldContinue, existingLasers, Bool.or_eq_true,
    Bool.and_eq_true, List.any_eq_true, decide_eq_true_eq, and_comm]
  aesop

/-- C3 witness: with a screen stream attached, the idle initial state still
requests another tick. -/
theorem redraw_continue_iff_witness :
    redrawShouldContinue init0 0 true = true :=
  (redraw_continue_iff init0 0 true).mpr (Or.inr (Or.inr rfl))

/-- C4: laser garbage collection is idempotent — on a slide whose persisted
stroke list holds no laser-tool strokes, the cleanup step of `redraw`
schedules no update (`onUpdateSlide` is not called) and the state is
unchanged. -/
theorem gc_noop_without_lasers (st : WBState) (now : ℤ)
    (h : ∀ s ∈ st.strokes, s.tool ≠ ToolType.LASER) :
    redrawGC st now = none ∧ applyGC st now = st := by
  have he : existingLasers st = false := by
    simp only [existingLasers, List.any_eq_false, decide_eq_true_eq]
    exact h
  have hg : redrawGC st now = none := by
    simp [redrawGC, he]
  exact ⟨hg, by simp [applyGC, hg]⟩

/-- C4 witness: on the empty initial slide the GC step schedules nothing. -/
theorem gc_noop_without_lasers_witness :
    redrawGC init0 0 = none ∧ applyGC init0 0 = init0 :=
  gc_noop_without_lasers init0 0 (by simp [init0])

/-- C5: laser garbage collection never fires during a laser gesture — in any
state where a laser stroke is actively being drawn (gesture open with a
Laser-tool in-progress stroke), the redraw pass schedules no removal of
laser strokes, at every clock value. -/
theorem gc_skipped_during_laser_gesture (st : WBState) (now : ℤ) (cs : Stroke)
    (h1 : st.isDrawing = true) (h2 : st.currentStroke = some cs)
    (h3 : cs.tool = ToolType.LASER) :
    redrawGC st now = none := by
  have hd : isDrawingLaser st = true := by
    simp [isDrawingLaser, h1, h2, h3]
  simp [redrawGC, hd]

/-- A persisted laser stroke used by concrete GC/render witnesses. -/
def laserStroke0 : Stroke :=
  { id := "L0", tool := ToolType.LASER, points := [⟨1, 1, some 0⟩],
    color := "#EF4444", width := 8, isFilled := none }

/-- A state in the middle of a laser gesture, with a stale persisted laser
stroke present. -/
def laserGestureState : WBState :=
  { isDrawing := true, currentStroke := some laserStroke0,
    strokes := [laserStroke0], lastActive := 0, calls := [] }

/-- C5 witness: long after the persisted laser stroke went stale, no GC is
scheduled while the laser gesture is open. -/
theorem gc_skipped_during_laser_gesture_witness :
    redrawGC laserGestureState 999999 = none :=
  gc_skipped_during_laser_gesture laserGestureState 999999 laserStroke0
    rfl rfl rfl

/-- C6: for Rectangle, Circle and Arrow strokes the rendered output depends
only on the first and last point — two such strokes agreeing on tool, color,
width, first point and last point produce identical context-call lists,
whatever intermediate points either of them carries. -/
theorem shape_render_endpoints_only (m : MathPrims) (o : Option ℚ)
    (s1 s2 : Stroke) (htool : s1.tool = s2.tool)
    (hshape : s1.tool = ToolType.RECTANGLE ∨ s1.tool = ToolType.CIRCLE ∨
      s1.tool = ToolType.ARROW)
    (hcolor : s1.color = s2.color) (hwidth : s1.width = s2.width)
    (hne1 : s1.points ≠ []) (hne2 : s2.points ≠ [])
    (hfirst : s1.points.getD 0 default = s2.points.getD 0 default)
    (hlast : s1.points.getD (s1.points.length - 1) default
           = s2.points.getD (s2.points.length - 1) default) :
    renderStroke m s1 o = renderStroke m s2 o := by
  simp only [List.getD_eq_getElem?_getD] at hfirst hlast
  rcases hshape with h1 | h1 | h1 <;>
    (have h2 : s2.tool = s1.tool := htool.symm) <;>
    rw [h1] at h2 <;>
    simp [renderStroke, h1, h2, hcolor, hwidth, hfirst, hlast,
      List.length_eq_zero, hne1, hne2]

/-- Rectangle stroke with only its two corners. -/
def rectStroke2 : Stroke :=
  { id := "r1", tool := ToolType.RECTANGLE, points := [⟨0, 0, none⟩, ⟨5, 5, none⟩],
    color := "#000000", width := 2, isFilled := none }

/-- The same rectangle with a stray intermediate drag point. -/
def rectStroke3 : Stroke :=
  { id := "r2", tool := ToolType.RECTANGLE,
    points := [⟨0, 0, none⟩, ⟨3, 9, none⟩, ⟨5, 5, none⟩],
    color := "#000000", width := 2, isFilled := none }

/-- Concrete math primitives for closed witnesses (any values work: the
renderer only threads them through). -/
def m0 : MathPrims := ⟨id, fun a b => a + b, id, id, 3⟩

/-- C6 witness: the two concrete rectangles, with and without the stray
intermediate point, render to the same op list. -/
theorem shape_render_endpoints_only_witness :
    renderStroke m0 rectStroke2 none = renderStroke m0 rectStroke3 none :=
  shape_render_endpoints_only m0 none rectStroke2 rectStroke3 rfl
    (Or.inl rfl) rfl rfl (by decide) (by decide) rfl rfl

/-- C7: an Eraser gesture at selected width `w` creates a stroke of width
`w * 5` whose color is the fixed `#000000` regardless of the selected color,
and the renderer paints every eraser stroke with destination-out
compositing. -/
theorem eraser_gesture_and_render (color : String) (w : ℚ) (sid : String)
    (p : Point) (now : ℤ) (st : WBState) (m : MathPrims) (s : Stroke)
    (hs : s.tool = ToolType.ERASER) :
    (startDrawing ToolType.ERASER color w sid p now st).currentStroke =
      some { id := sid, tool := ToolType.ERASER, points := [p],
             color := "#000000", width := w * 5, isFilled := none } ∧
    CanvasOp.setGCO "destination-out" ∈ renderStroke m s none := by
  constructor
  · simp [startDrawing]
  · have h1 : ¬ (ToolType.ERASER = ToolType.LASER) := by decide
    have h2 : ¬ (ToolType.ERASER = ToolType.HIGHLIGHTER) := by decide
    simp [renderStroke, hs, h1, h2]
    split <;> simp

/-- A concrete eraser stroke for the C7 witness. -/
def eraserStroke0 : Stroke :=
  { id := "e0", tool := ToolType.ERASER, points := [⟨2, 2, some 0⟩],
    color := "#000000", width := 20, isFilled := none }

/-- C7 witness: with selected width 4 the eraser stroke gets width `4 * 5`
(= 20) and fixed color, and its render includes destination-out. -/
theorem eraser_gesture_and_render_witness :
    (startDrawing ToolType.ERASER "#3B82F6" 4 "e1" c2p1 0 init0).currentStroke =
      some { id := "e1", tool := ToolType.ERASER, points := [c2p1],
             color := "#000000", width := 4 * 5, isFilled := none } ∧
    (4 : ℚ) * 5 = 20 ∧
    CanvasOp.setGCO "destination-out" ∈ renderStroke m0 eraserStroke0 none :=
  ⟨(eraser_gesture_and_render "#3B82F6" 4 "e1" c2p1 0 init0 m0 eraserStroke0
      rfl).1,
   by norm_num,
   (eraser_gesture_and_render "#3B82F6" 4 "e1" c2p1 0 init0 m0 eraserStroke0
      rfl).2⟩

/-- The oldest laser segment is drawn at taper factor 1/2. -/
lemma laserSegWidth_zero (w : ℚ) (n : ℕ) :
    laserSegWidth w n 0 = max 1 (w * (1 / 2)) := by
  simp [laserSegWidth]
  norm_num

/-- A two-point laser stroke of width 10 for the C8 refutation and witness. -/
def laserWide0 : Stroke :=
  { id := "L1", tool := ToolType.LASER,
    points := [⟨0, 0, none⟩, ⟨5, 5, none⟩],
    color := "#EF4444", width := 10, isFilled := none }

/-- C8 (counterexample): the claim says the newest segment is drawn at taper
factor 1.0 (line width = stroke width).  For the two-point laser stroke of
width 10 the only — hence newest — segment is drawn at line width
`max 1 (10 * (0.5 + 0.5 * (0 / 2))) = 5`, not `10 * 1.0 = 10`: the code
divides the segment index by `points.length`, so the factor never reaches
1.0. -/
theorem C8_counterexample :
    laserSegWidth 10 2 0 = 5 ∧ (5 : ℚ) ≠ 10 * 1 ∧
    laserSegs laserWide0.width laserWide0.color laserWide0.points =
      [CanvasOp.beginPath, CanvasOp.setLineWidth 5,
       CanvasOp.setStrokeStyle "#EF4444", CanvasOp.moveTo 0 0,
       CanvasOp.lineTo 5 5, CanvasOp.stroke] := by
  have h5 : laserSegWidth 10 2 0 = 5 := by
    simp [laserSegWidth]
    rw [max_eq_right (by norm_num)]
    norm_num
  refine ⟨h5, by norm_num, ?_⟩
  simp [laserSegs, laserSeg, laserWide0, List.range_succ]
  exact h5

/-- C8 (amended): for a laser stroke with `n ≥ 2` points the renderer draws
segment `i` (oldest = 0) at line width
`laserSegWidth = max 1 (width * (0.5 + 0.5 * (i / n)))`: the taper factor
starts at 0.5 for the oldest segment and increases strictly with `i` (for
width ≥ 2, where the clamp at 1 is inactive), approaching — but for the
newest segment never reaching — 1.0, since `0.5 + 0.5 * ((n-2)/n) < 1`. -/
theorem laser_taper (m : MathPrims) (s : Stroke)
    (hs : s.tool = ToolType.LASER) (hn : 2 ≤ s.points.length) :
    renderStroke m s none =
      [CanvasOp.setLineWidth s.width, CanvasOp.setLineCap "round",
       CanvasOp.setLineJoin "round", CanvasOp.setShadowBlur 0,
       CanvasOp.setShadowBlur 15, CanvasOp.setShadowColor s.color,
       CanvasOp.setGCO "source-over", CanvasOp.setGlobalAlpha 1]
      ++ laserSegs s.width s.color s.points
      ++ [CanvasOp.beginPath, CanvasOp.setFillStyle s.color,
          CanvasOp.arc (s.points.getD (s.points.length - 1) default).x
            (s.points.getD (s.points.length - 1) default).y
            (s.width / 1.5) 0 (m.pi * 2), CanvasOp.fill] ∧
    laserSegWidth s.width s.points.length 0 = max 1 (s.width * (1 / 2)) ∧
    (0 ≤ s.width → ∀ i j : ℕ, i ≤ j →
      laserSegWidth s.width s.points.length i ≤
        laserSegWidth s.width s.points.length j) ∧
    (2 ≤ s.width → ∀ i j : ℕ, i < j →
      laserSegWidth s.width s.points.length i <
        laserSegWidth s.width s.points.length j) ∧
    ((1 : ℚ) / 2 + 1 / 2 * (((s.points.length - 2 : ℕ) : ℚ) /
        (s.points.length : ℚ)) < 1) := by
  have hn0 : 0 < s.points.length := by omega
  have hnq : (0 : ℚ) < (s.points.length : ℚ) := by exact_mod_cast hn0
  refine ⟨?_, laserSegWidth_zero s.width s.points.length, ?_, ?_, ?_⟩
  · have h1 : ¬ s.points.length < 1 := by omega
    have h2 : ¬ ((1 : ℚ) ≤ 0) := by norm_num
    have h3 : (0 : ℚ) < 1 := by norm_num
    simp [renderStroke, laserRender, hs, h1, h2, h3]
  · intro hw i j hij
    have hdiv : ((i : ℚ) / (s.points.length : ℚ)) ≤
        ((j : ℚ) / (s.points.length : ℚ)) := by
      apply div_le_div_of_nonneg_right ?_ hnq.le
      exact_mod_cast hij
    simp only [laserSegWidth]
    have : s.width * (0.5 + 0.5 * ((i : ℚ) / (s.points.length : ℚ))) ≤
        s.width * (0.5 + 0.5 * ((j : ℚ) / (s.points.length : ℚ))) := by
      apply mul_le_mul_of_nonneg_left ?_ hw
      linarith
    exact max_le_max le_rfl this
  · intro hw i j hij
    have hdiv : ((i : ℚ) / (s.points.length : ℚ)) <
        ((j : ℚ) / (s.points.length : ℚ)) := by
      exact (div_lt_div_iff_of_pos_right hnq).mpr (by exact_mod_cast hij)
    simp only [laserSegWidth]
    have hi0 : (0 : ℚ) ≤ (i : ℚ) / (s.points.length : ℚ) :=
      div_nonneg (by positivity) (le_of_lt hnq)
    have hclampi : (1 : ℚ) ≤ s.width * (0.5 + 0.5 * ((i : ℚ) / (s.points.length : ℚ))) := by
      nlinarith
    have hclampj : (1 : ℚ) ≤ s.width * (0.5 + 0.5 * ((j : ℚ) / (s.points.length : ℚ))) := by
      nlinarith
    rw [max_eq_right hclampi, max_eq_right hclampj]
    have hw0 : (0 : ℚ) < s.width := by linarith
    apply mul_lt_mul_of_pos_left ?_ hw0
    linarith
  · have hcast : (((s.points.length - 2 : ℕ) : ℚ)) =
        (s.points.length : ℚ) - 2 := by
      push_cast [Nat.cast_sub hn]
      ring
    rw [hcast]
    have hlt : ((s.points.length : ℚ) - 2) / (s.points.length : ℚ) < 1 :=
      (div_lt_one hnq).mpr (by linarith)
    linarith

/-- C8 witness: on the two-point width-10 laser stroke the second segment
position would be drawn strictly wider than the first. -/
theorem laser_taper_witness : laserSegWidth 10 2 0 < laserSegWidth 10 2 1 :=
  (laser_taper m0 laserWide0 rfl (by decide)).2.2.2.1 (by norm_num [laserWide0]) 0 1
    (by norm_num)

/-- The C9 invariant: every persisted stroke and any in-progress stroke has
a non-empty point list. -/
def inv (st : WBState) : Prop :=
  (∀ s ∈ st.strokes, s.points ≠ []) ∧
  (∀ cs, st.currentStroke = some cs → cs.points ≠ [])

/-- Gesture start seeds the in-progress stroke with one point, so it
preserves the invariant. -/
lemma inv_startDrawing (tool : ToolType) (color : String) (width : ℚ)
    (sid : String) (p : Point) (now : ℤ) (st : WBState) (h : inv st) :
    inv (startDrawing tool color width sid p now st) := by
  obtain ⟨h1, h2⟩ := h
  refine ⟨fun s hs => h1 s (by simpa [startDrawing] using hs), ?_⟩
  intro cs hcs
  simp [startDrawing] at hcs
  simp [← hcs]

/-- A move either appends a point or replaces the list with two points, so
it preserves the invariant. -/
lemma inv_draw (tool : ToolType) (p : Point) (now : ℤ) (st : WBState)
    (h : inv st) : inv (draw tool p now st) := by
  obtain ⟨h1, h2⟩ := h
  rcases st with ⟨d, c, ss, la, cl⟩
  cases d <;> cases c <;> simp_all [draw, inv]
  split_ifs <;> simp_all

/-- Gesture end commits the in-progress stroke, which is non-empty by the
invariant, so the invariant is preserved. -/
lemma inv_stopDrawing (tool : ToolType) (now : ℤ) (st : WBState)
    (h : inv st) : inv (stopDrawing tool now st) := by
  obtain ⟨h1, h2⟩ := h
  rcases st with ⟨d, c, ss, la, cl⟩
  cases d <;> cases c <;> simp_all [stopDrawing, inv]
  exact fun s hs => hs.elim (h1 s) (fun he => he ▸ h2)

/-- When GC schedules an update, the new list is a sub-collection of the old
stroke list. -/
lemma redrawGC_subset {st : WBState} {now : ℤ} {nl : List Stroke}
    (hgc : redrawGC st now = some nl) : ∀ s ∈ nl, s ∈ st.strokes := by
  intro s hs
  simp only [redrawGC] at hgc
  split_ifs at hgc with hcond hlen
  all_goals cases hgc
  all_goals exact List.mem_of_mem_filter hs

/-- Laser garbage collection filters the stroke list, so it preserves the
invariant. -/
lemma inv_applyGC (now : ℤ) (st : WBState) (h : inv st) :
    inv (applyGC st now) := by
  obtain ⟨h1, h2⟩ := h
  unfold applyGC
  cases hgc : redrawGC st now with
  | none => exact ⟨h1, h2⟩
  | some nl =>
    exact ⟨fun s hs => h1 s (redrawGC_subset hgc s hs), h2⟩

/-- All reachable states satisfy the invariant. -/
lemma reachable_inv {st : WBState} (h : Reachable st) : inv st := by
  induction h with
  | init => exact ⟨by simp [init0], by simp [init0]⟩
  | step hr hstep ih =>
    cases hstep with
    | start tool color width sid p now st => exact inv_startDrawing _ _ _ _ _ _ _ ih
    | move tool p now st => exact inv_draw _ _ _ _ ih
    | stop tool now st => exact inv_stopDrawing _ _ _ ih
    | gc now st => exact inv_applyGC _ _ ih

/-- C9: in every state reachable by pointer gestures and redraw/GC passes
from a fresh slide, every stroke in the persisted list has at least one
point. -/
theorem persisted_strokes_nonempty (st : WBState) (s : Stroke)
    (hr : Reachable st) (hs : s ∈ st.strokes) : 1 ≤ s.points.length :=
  List.length_pos.mpr ((reachable_inv hr).1 s hs)

/-- C9 witness: the stroke committed by the concrete C2 gesture — a
reachable state — has at least one point. -/
theorem persisted_strokes_nonempty_witness :
    1 ≤ ((c2Final.strokes.getD 0 default).points.length) :=
  persisted_strokes_nonempty c2Final (c2Final.strokes.getD 0 default)
    (Reachable.step
      (Reachable.step
        (Reachable.step
          (Reachable.step Reachable.init
            (Step.start ToolType.PEN "#3B82F6" 4 "s1" c2p1 0 init0))
          (Step.move ToolType.PEN c2p2 1 _))
        (Step.move ToolType.PEN c2p3 2 _))
      (Step.stop ToolType.PEN 3 _))
    (by decide)

end Eduboard
